import Mathlib

/-!
Verification of the blog configuration and its implied routing engine.

The repository consists of a single Pelican configuration file
(`pelican/pelicanconf.py`).  Its module-level constants are embedded below
under their original names.  The configuration-resolution and URL-routing
engine that consumes this configuration is not part of the repository; it is
modelled from the specification (ConfigResolver / RoutePlanner) where a claim
needs it, and each such definition is marked `Modelled from the spec:`.
-/

namespace Blog

/-! ## Configuration constants, embedded from `pelican/pelicanconf.py` -/

def AUTHOR : String := "Leonardo Giordani"

def SITENAME : String := "The Digital Cat"

def FEED_ALL_ATOM : String := "atom.xml"

def TAG_FEED_ATOM : String := "categories/%s/atom.xml"

def CATEGORY_FEED_ATOM : String := "category/%s/atom.xml"

def TRANSLATION_FEED_ATOM : Option String := none

def DISPLAY_FEEDS_ON_SIDEBAR : Bool := true

def DISPLAY_TAGS_ON_SIDEBAR : Bool := false

def ARTICLE_URL : String := "blog/{date:%Y}/{date:%m}/{date:%d}/{slug}/"

def ARTICLE_SAVE_AS : String := ARTICLE_URL ++ "index.html"

def CATEGORY_URL : String := "category/{slug}/"

def CATEGORY_SAVE_AS : String := CATEGORY_URL ++ "index.html"

def TAG_URL : String := "categories/{slug}/"

def TAG_SAVE_AS : String := TAG_URL ++ "index.html"

def ARCHIVES_URL : String := "archives/"

def ARCHIVES_SAVE_AS : String := ARCHIVES_URL ++ "index.html"

def AUTHOR_URL : String := "authors/{slug}/"

def AUTHOR_SAVE_AS : String := AUTHOR_URL ++ "index.html"

def SLUG_SUBSTITUTIONS : List (String × String) := [("c++", "cpp")]

def DEFAULT_PAGINATION : Nat := 9

/-- The `PAGINATION_PATTERNS` tuple from the source: each entry is
(minimum page number, URL pattern, save-as pattern). -/
def PAGINATION_PATTERNS : List (Nat × String × String) :=
  [(1, "{base_name}/", "{base_name}/index.html"),
   (2, "{base_name}/page/{number}/", "{base_name}/page/{number}/index.html")]

/-! ## Data model (spec §3) -/

/-- Content kinds routed by the planner (article, category, tag, archives,
author), each with a URL template in the configuration. -/
inductive Kind where
  | article
  | category
  | tag
  | archives
  | author
deriving DecidableEq, Repr

/-- A calendar date carried by a content item. -/
structure Date where
  year : Nat
  month : Nat
  day : Nat
deriving DecidableEq, Repr

/-- Modelled from the spec: a ContentItem with attributes
slug, date, category, tags, author (spec §3), plus its kind. -/
structure ContentItem where
  kind : Kind
  slug : String
  date : Option Date
  category : Option String
  tags : List String
  author : Option String
deriving DecidableEq, Repr

/-- Modelled from the spec: the resolved Settings record (spec §3) holding the
URL templates per content kind, the ordered slug-substitution list, the
pagination parameters and the enabled feed paths, populated from the
configuration constants. -/
structure Settings where
  articleUrl : String
  categoryUrl : String
  tagUrl : String
  archivesUrl : String
  authorUrl : String
  slugSubs : List (String × String)
  pageSize : Nat
  paginationPatterns : List (Nat × String × String)
  feedPaths : List String
  feedsOnSidebar : Bool
deriving DecidableEq, Repr

/-- The settings resolved from the repository's configuration file.  Feed
paths collect the non-`None` feed settings. -/
def theSettings : Settings :=
  { articleUrl := ARTICLE_URL
    categoryUrl := CATEGORY_URL
    tagUrl := TAG_URL
    archivesUrl := ARCHIVES_URL
    authorUrl := AUTHOR_URL
    slugSubs := SLUG_SUBSTITUTIONS
    pageSize := DEFAULT_PAGINATION
    paginationPatterns := PAGINATION_PATTERNS
    feedPaths := [FEED_ALL_ATOM, TAG_FEED_ATOM, CATEGORY_FEED_ATOM]
    feedsOnSidebar := DISPLAY_FEEDS_ON_SIDEBAR }

/-- The URL template the configuration assigns to a content kind. -/
def Settings.urlTemplate (st : Settings) : Kind → String
  | .article => st.articleUrl
  | .category => st.categoryUrl
  | .tag => st.tagUrl
  | .archives => st.archivesUrl
  | .author => st.authorUrl

/-- The last segment of a path: the characters after the final slash. -/
def lastSegment (s : List Char) : List Char :=
  ((s.reverse.takeWhile (fun c => !(c == '/'))).reverse)

/-! ## String machinery for the route planner -/

/-- Test whether `tok` occurs at the very start of `s`. -/
def isPre : List Char → List Char → Bool
  | [], _ => true
  | _ :: _, [] => false
  | a :: as, b :: bs => a == b && isPre as bs

/-- Test whether `tok` occurs somewhere in `s`. -/
def containsTok (tok : List Char) : List Char → Bool
  | [] => tok.isEmpty
  | c :: cs => isPre tok (c :: cs) || containsTok tok cs

/-- One left-to-right scan over `s` replacing every (non-overlapping)
occurrence of `src` by `tgt`; the replacement text is not rescanned
(substitution is applied once, not recursively).  The `Nat` argument is
recursion fuel, always instantiated with the length of the scanned list. -/
def replaceAllAux (src tgt : List Char) : Nat → List Char → List Char
  | _, [] => []
  | 0, s => s
  | fuel + 1, c :: cs =>
    if isPre src (c :: cs) && !src.isEmpty then
      tgt ++ replaceAllAux src tgt fuel (cs.drop (src.length - 1))
    else
      c :: replaceAllAux src tgt fuel cs

/-- Replace every occurrence of `src` in `s` by `tgt`, in one pass. -/
def replaceAll (src tgt s : List Char) : List Char :=
  replaceAllAux src tgt s.length s

/-! ## RoutePlanner (spec §4.2) -/

/-- Modelled from the spec: slug substitution (spec §4.2 step 2) — scan the
ordered substitution list once, left to right, and apply the first rule whose
source token matches the slug, replacing its occurrences in a single
non-recursive pass; unmatched slugs pass through unchanged. -/
def substituteSlug (subs : List (String × String)) (slug : String) : String :=
  match subs.find? (fun p => containsTok p.fst.toList slug.toList) with
  | some p => String.mk (replaceAll p.fst.toList p.snd.toList slug.toList)
  | none => slug

/-- Decimal rendering of `n`, left-padded with zeros to width `w` (used for
the `%Y`, `%m`, `%d` date components). -/
def padNum (w n : Nat) : String :=
  String.mk (List.replicate (w - (Nat.toDigits 10 n).length) '0' ++ Nat.toDigits 10 n)

/-- Modelled from the spec: the placeholder/value bindings an item's
attributes provide for template expansion (date components, category, author,
slug — spec §4.2 step 3). -/
def placeholderBindings (it : ContentItem) (finalSlug : String) :
    List (String × String) :=
  (match it.date with
   | some d => [("{date:%Y}", padNum 4 d.year), ("{date:%m}", padNum 2 d.month),
                ("{date:%d}", padNum 2 d.day)]
   | none => []) ++
  (match it.category with | some c => [("{category}", c)] | none => []) ++
  (match it.author with | some a => [("{author}", a)] | none => []) ++
  [("{slug}", finalSlug)]

/-- Modelled from the spec: expand a template by substituting each bound
placeholder (spec §4.2 step 3). -/
def expandTemplate (bs : List (String × String)) (tmpl : String) : String :=
  bs.foldl (fun acc p => String.mk (replaceAll p.fst.toList p.snd.toList acc.toList)) tmpl

/-- Modelled from the spec: the placeholders of the item's template that its
attributes cannot resolve (spec §4.2 step 3: "fails with `RouteError` if a
placeholder cannot be resolved from the item's attributes"). -/
def missingFields (it : ContentItem) (tmpl : String) : List String :=
  (if containsTok "\x7bdate:".toList tmpl.toList && it.date.isNone then ["date"] else []) ++
  (if containsTok "{category}".toList tmpl.toList && it.category.isNone then ["category"]
   else []) ++
  (if containsTok "{author}".toList tmpl.toList && it.author.isNone then ["author"] else [])

/-- A per-item routing error: names the offending item (by its slug) and the
missing field. -/
structure RouteError where
  itemSlug : String
  missing : String
deriving DecidableEq, Repr

/-- A route binding: the planner's output for one item (spec §3). -/
structure RouteBinding where
  item : ContentItem
  url : String
  filePath : String
deriving DecidableEq, Repr

/-- Fatal planning outcomes: the aggregated per-item route errors, or a
duplicate output path (spec §7). -/
inductive PlanError where
  | routeErrors (errs : List RouteError)
  | routeCollision
deriving DecidableEq, Repr

/-- Modelled from the spec: resolve one content item (spec §4.2 steps 1–4) —
select the kind's URL template, substitute the slug, expand the placeholders
(failing with a `RouteError` naming the item and the missing field when one
cannot be resolved), and derive the file path by appending the index file
name to the resolved URL. -/
def resolveItem (st : Settings) (it : ContentItem) : Except RouteError RouteBinding :=
  let tmpl := st.urlTemplate it.kind
  match missingFields it tmpl with
  | f :: _ => .error ⟨it.slug, f⟩
  | [] =>
    let finalSlug := substituteSlug st.slugSubs it.slug
    let url := expandTemplate (placeholderBindings it finalSlug) tmpl
    .ok ⟨it, url, url ++ "index.html"⟩

/-- The error part of one resolution result. -/
def errOf : Except RouteError RouteBinding → Option RouteError
  | .error e => some e
  | .ok _ => none

/-- The binding part of one resolution result. -/
def okOf : Except RouteError RouteBinding → Option RouteBinding
  | .ok b => some b
  | .error _ => none

/-- Modelled from the spec: `plan` (spec §4.2) — resolve every item; per-item
errors do not abort the pass, they are collected and surfaced together at the
end; on an error-free pass, duplicate output paths are a fatal
`RouteCollisionError`, otherwise the ordered bindings are returned. -/
def plan (st : Settings) (items : List ContentItem) :
    Except PlanError (List RouteBinding) :=
  let results := items.map (resolveItem st)
  let errs := results.filterMap errOf
  if errs.isEmpty then
    let bs := results.filterMap okOf
    if (bs.map fun b => b.filePath : List String).Nodup then .ok bs
    else .error .routeCollision
  else .error (.routeErrors errs)

/-- The binding an item resolves to (meaningful when resolution succeeds). -/
def bindingOf (st : Settings) (it : ContentItem) : RouteBinding :=
  match resolveItem st it with
  | .ok b => b
  | .error _ => ⟨it, "", ""⟩

/-- The output file path an item resolves to. -/
def pathOf (st : Settings) (it : ContentItem) : String :=
  (bindingOf st it).filePath

/-! ## Pagination (spec §4.2 step 5) -/

/-- Modelled from the spec: the total number of listing pages,
ceiling(item count / page size). -/
def totalPages (itemCount pageSize : Nat) : Nat :=
  (itemCount + pageSize - 1) / pageSize

/-- Modelled from the spec: the pagination pattern applying to a page is the
last configured pattern whose minimum page number does not exceed it (page 1
uses the base pattern, pages ≥ 2 the numbered one). -/
def patternFor (pats : List (Nat × String × String)) (page : Nat) :
    String × String :=
  pats.foldl (fun acc p => if p.fst ≤ page then p.snd else acc) ("", "")

/-- Modelled from the spec: the URL of one listing page — its pattern with
the base name and the page number substituted. -/
def pageUrl (pats : List (Nat × String × String)) (baseName : String)
    (page : Nat) : String :=
  expandTemplate
    [("{base_name}", baseName), ("{number}", String.mk (Nat.toDigits 10 page))]
    (patternFor pats page).fst

/-! ## Helper lemmas -/

/-- Ceiling division on naturals: `(n + p - 1) / p` is the ceiling of the
rational quotient `n / p`. -/
theorem add_pred_div_eq_ceil (n p : ℕ) (hp : 0 < p) :
    (n + p - 1) / p = ⌈(n : ℚ) / (p : ℚ)⌉₊ := by
  apply eq_of_forall_ge_iff
  intro m
  rw [Nat.div_le_iff_le_mul_add_pred hp, Nat.ceil_le,
    div_le_iff₀ (by exact_mod_cast hp)]
  have hcast : (n : ℚ) ≤ (m : ℚ) * (p : ℚ) ↔ n ≤ m * p := by exact_mod_cast Iff.rfl
  rw [hcast, Nat.mul_comm m p]
  generalize p * m = q
  omega

/-- Unfolding lemma for one scanning step of the "c++" → "cpp" replacement
pass. -/
theorem replaceCpp_cons (f : Nat) (c : Char) (cs : List Char) :
    replaceAllAux ['c', '+', '+'] ['c', 'p', 'p'] (f + 1) (c :: cs) =
      if isPre ['c', '+', '+'] (c :: cs) = true then
        'c' :: 'p' :: 'p' ::
          replaceAllAux ['c', '+', '+'] ['c', 'p', 'p'] f (cs.drop 2)
      else c :: replaceAllAux ['c', '+', '+'] ['c', 'p', 'p'] f cs := by
  by_cases h : isPre ['c', '+', '+'] (c :: cs) = true
  · rw [if_pos h]
    show (if isPre ['c', '+', '+'] (c :: cs) && true then _ else _) = _
    rw [h]
    rfl
  · rw [if_neg h]
    have h' : isPre ['c', '+', '+'] (c :: cs) = false := Bool.eq_false_iff.mpr h
    show (if isPre ['c', '+', '+'] (c :: cs) && true then _ else _) = _
    rw [h']
    rfl

/-- A matching position for "c++" starts with the character c followed by
two plus signs. -/
theorem isPre_cpp_iff (c : Char) (cs : List Char) :
    isPre ['c', '+', '+'] (c :: cs) = true ↔
      c = 'c' ∧ isPre ['+', '+'] cs = true := by
  show (('c' == c) && isPre ['+', '+'] cs) = true ↔ _
  rw [Bool.and_eq_true, beq_iff_eq, eq_comm]

/-- The replacement output starts with a plus sign exactly when the input
does: a replacement step emits a c first. -/
theorem isPre_plus_replaceAllAux (f : Nat) (s : List Char) :
    isPre ['+'] (replaceAllAux ['c', '+', '+'] ['c', 'p', 'p'] f s) =
      isPre ['+'] s := by
  cases s with
  | nil => cases f <;> rfl
  | cons c cs =>
    cases f with
    | zero => rfl
    | succ f =>
      rw [replaceCpp_cons]
      by_cases h : isPre ['c', '+', '+'] (c :: cs) = true
      · rw [if_pos h]
        obtain ⟨hc, _⟩ := (isPre_cpp_iff c cs).mp h
        subst hc
        rfl
      · rw [if_neg h]
        rfl

/-- The replacement output starts with two plus signs exactly when the input
does. -/
theorem isPre_plus2_replaceAllAux (f : Nat) (s : List Char) :
    isPre ['+', '+'] (replaceAllAux ['c', '+', '+'] ['c', 'p', 'p'] f s) =
      isPre ['+', '+'] s := by
  cases s with
  | nil => cases f <;> rfl
  | cons c cs =>
    cases f with
    | zero => rfl
    | succ f =>
      rw [replaceCpp_cons]
      by_cases h : isPre ['c', '+', '+'] (c :: cs) = true
      · rw [if_pos h]
        obtain ⟨hc, _⟩ := (isPre_cpp_iff c cs).mp h
        subst hc
        rfl
      · rw [if_neg h]
        show (('+' == c) &&
            isPre ['+'] (replaceAllAux ['c', '+', '+'] ['c', 'p', 'p'] f cs)) =
          (('+' == c) && isPre ['+'] cs)
        rw [isPre_plus_replaceAllAux]

/-- After one replacement pass for "c++" → "cpp", the token "c++" no longer
occurs anywhere in the output. -/
theorem replaceAllAux_no_occ (f : Nat) (s : List Char) (hf : s.length ≤ f) :
    containsTok ['c', '+', '+']
      (replaceAllAux ['c', '+', '+'] ['c', 'p', 'p'] f s) = false := by
  induction f generalizing s with
  | zero =>
    cases s with
    | nil => rfl
    | cons c cs => exact absurd hf (by simp)
  | succ f ih =>
    cases s with
    | nil => rfl
    | cons c cs =>
      rw [replaceCpp_cons]
      by_cases h : isPre ['c', '+', '+'] (c :: cs) = true
      · rw [if_pos h]
        exact ih (cs.drop 2)
          (by simp only [List.length_drop]
              simp only [List.length_cons] at hf
              omega)
      · rw [if_neg h]
        have h' : isPre ['c', '+', '+'] (c :: cs) = false :=
          Bool.eq_false_iff.mpr h
        have hrec := ih cs (by simp only [List.length_cons] at hf; omega)
        show (isPre ['c', '+', '+']
            (c :: replaceAllAux ['c', '+', '+'] ['c', 'p', 'p'] f cs) ||
          containsTok ['c', '+', '+']
            (replaceAllAux ['c', '+', '+'] ['c', 'p', 'p'] f cs)) = false
        rw [hrec, Bool.or_false]
        show (('c' == c) &&
            isPre ['+', '+'] (replaceAllAux ['c', '+', '+'] ['c', 'p', 'p'] f cs)) =
          false
        rw [isPre_plus2_replaceAllAux]
        exact h'

/-- Closed form of slug substitution over a single-rule list. -/
theorem substituteSlug_single (src tgt slug : String) :
    substituteSlug [(src, tgt)] slug =
      if containsTok src.toList slug.toList then
        String.mk (replaceAll src.toList tgt.toList slug.toList)
      else slug := by
  unfold substituteSlug
  cases hc : containsTok src.toList slug.toList with
  | false =>
    have hnone : List.find?
        (fun q => containsTok q.fst.toList slug.toList) [(src, tgt)] = none := by
      show (match containsTok src.toList slug.toList with
            | true => some (src, tgt)
            | false =>
                List.find? (fun q => containsTok q.fst.toList slug.toList) []) =
          none
      rw [hc]
      rfl
    rw [hnone, if_neg Bool.false_ne_true]
  | true =>
    have hsome : List.find?
        (fun q => containsTok q.fst.toList slug.toList) [(src, tgt)] =
          some (src, tgt) := by
      show (match containsTok src.toList slug.toList with
            | true => some (src, tgt)
            | false =>
                List.find? (fun q => containsTok q.fst.toList slug.toList) []) =
          some (src, tgt)
      rw [hc]
    rw [hsome, if_pos rfl]

set_option maxHeartbeats 2000000 in
/-- Resolving a category item yields the URL `category/<final slug>/` and
the matching file path, whatever the item's other attributes are. -/
theorem resolveItem_category (slug : String) (date : Option Date)
    (cat auth : Option String) (tags : List String) :
    resolveItem theSettings ⟨.category, slug, date, cat, tags, auth⟩ =
      .ok ⟨⟨.category, slug, date, cat, tags, auth⟩,
        String.mk ("category/".toList ++
          (substituteSlug SLUG_SUBSTITUTIONS slug).toList ++ ['/']),
        String.mk ("category/".toList ++
          (substituteSlug SLUG_SUBSTITUTIONS slug).toList ++ ['/']) ++
          "index.html"⟩ := by
  cases date <;> cases cat <;> cases auth <;> rfl

set_option maxHeartbeats 2000000 in
/-- Resolving a tag item yields the URL `categories/<final slug>/` and the
matching file path, whatever the item's other attributes are. -/
theorem resolveItem_tag (slug : String) (date : Option Date)
    (cat auth : Option String) (tags : List String) :
    resolveItem theSettings ⟨.tag, slug, date, cat, tags, auth⟩ =
      .ok ⟨⟨.tag, slug, date, cat, tags, auth⟩,
        String.mk ("categories/".toList ++
          (substituteSlug SLUG_SUBSTITUTIONS slug).toList ++ ['/']),
        String.mk ("categories/".toList ++
          (substituteSlug SLUG_SUBSTITUTIONS slug).toList ++ ['/']) ++
          "index.html"⟩ := by
  cases date <;> cases cat <;> cases auth <;> rfl

/-- Character 7 of any expansion of the category URL template is y. -/
theorem cat_idx7 (A B : List Char) :
    ("category/".toList ++ A ++ B)[7]? = some 'y' := by
  have hlen : ("category/".toList).length = 9 := rfl
  have h1 : (7 : Nat) < ("category/".toList ++ A).length := by
    rw [List.length_append, hlen]; omega
  rw [List.getElem?_append, if_pos h1, List.getElem?_append,
    if_pos (show (7 : Nat) < ("category/".toList).length by rw [hlen]; omega)]
  rfl

/-- Character 7 of any expansion of the tag URL template is i. -/
theorem tag_idx7 (A B : List Char) :
    ("categories/".toList ++ A ++ B)[7]? = some 'i' := by
  have hlen : ("categories/".toList).length = 11 := rfl
  have h1 : (7 : Nat) < ("categories/".toList ++ A).length := by
    rw [List.length_append, hlen]; omega
  rw [List.getElem?_append, if_pos h1, List.getElem?_append,
    if_pos (show (7 : Nat) < ("categories/".toList).length by rw [hlen]; omega)]
  rfl

/-- Character 7 of any expansion of the category save-as template is y. -/
theorem cat_idx7_path (A : List Char) :
    (("category/".toList ++ A ++ ['/']) ++ "index.html".toList)[7]? =
      some 'y' := by
  have hbig : (7 : Nat) < ("category/".toList ++ A ++ ['/']).length := by
    rw [List.length_append, List.length_append]
    have hlen : ("category/".toList).length = 9 := rfl
    rw [hlen]; omega
  rw [List.getElem?_append, if_pos hbig, cat_idx7]

/-- Character 7 of any expansion of the tag save-as template is i. -/
theorem tag_idx7_path (A : List Char) :
    (("categories/".toList ++ A ++ ['/']) ++ "index.html".toList)[7]? =
      some 'i' := by
  have hbig : (7 : Nat) < ("categories/".toList ++ A ++ ['/']).length := by
    rw [List.length_append, List.length_append]
    have hlen : ("categories/".toList).length = 11 := rfl
    rw [hlen]; omega
  rw [List.getElem?_append, if_pos hbig, tag_idx7]

/-- Two character lists disagreeing at position 7 are different. -/
theorem ne_of_idx7 (L M : List Char) (hL : L[7]? = some 'y')
    (hM : M[7]? = some 'i') : L ≠ M := by
  intro h
  rw [h, hM] at hL
  exact absurd (Option.some.inj hL) (by decide)

/-- When every item resolves, the error pass collects nothing and the
binding pass collects exactly one binding per item, in order. -/
theorem results_ok (st : Settings) (items : List ContentItem)
    (h : ∀ it ∈ items, errOf (resolveItem st it) = none) :
    (items.map (resolveItem st)).filterMap errOf = [] ∧
    (items.map (resolveItem st)).filterMap okOf = items.map (bindingOf st) := by
  induction items with
  | nil => exact ⟨rfl, rfl⟩
  | cons a l ih =>
    have ha : errOf (resolveItem st a) = none := h a (by simp)
    have hl := ih fun it hit => h it (by simp [hit])
    cases hr : resolveItem st a with
    | error e => rw [hr] at ha; exact absurd ha (by simp [errOf])
    | ok b =>
      refine ⟨?_, ?_⟩
      · rw [List.map_cons, List.filterMap_cons, hr]
        show List.filterMap errOf (List.map (resolveItem st) l) = []
        exact hl.1
      · rw [List.map_cons, List.filterMap_cons, hr, List.map_cons]
        show b :: List.filterMap okOf (List.map (resolveItem st) l) =
          bindingOf st a :: List.map (bindingOf st) l
        rw [hl.2, show bindingOf st a = b from by unfold bindingOf; rw [hr]]

/-- Composing the binding map with the file-path projection gives the
per-item path map. -/
theorem map_filePath_bindingOf (st : Settings) (items : List ContentItem) :
    ((items.map (bindingOf st)).map fun b => b.filePath) =
      items.map (pathOf st) := by
  rw [List.map_map]
  rfl

/-- When every item resolves, `plan` reduces to the duplicate-path check
over the per-item file paths. -/
theorem plan_of_all_ok (st : Settings) (items : List ContentItem)
    (h : ∀ it ∈ items, errOf (resolveItem st it) = none) :
    plan st items =
      if (items.map (pathOf st)).Nodup then .ok (items.map (bindingOf st))
      else .error .routeCollision := by
  obtain ⟨he, hb⟩ := results_ok st items h
  simp only [plan]
  rw [he, hb, map_filePath_bindingOf]
  rfl

/-- Two positions of the per-item path list carry equal paths exactly when
that list has a duplicate. -/
theorem exists_dup_path_iff (st : Settings) (items : List ContentItem) :
    (∃ i j : Fin items.length, i ≠ j ∧
      pathOf st (items.get i) = pathOf st (items.get j)) ↔
    ¬ (items.map (pathOf st)).Nodup := by
  rw [List.nodup_iff_injective_get]
  constructor
  · rintro ⟨i, j, hij, hp⟩ hinj
    have hg : (items.map (pathOf st)).get
          ⟨i.val, by rw [List.length_map]; exact i.isLt⟩ =
        (items.map (pathOf st)).get
          ⟨j.val, by rw [List.length_map]; exact j.isLt⟩ := by
      simp only [List.get_eq_getElem, List.getElem_map]
      simpa [List.get_eq_getElem] using hp
    have hval := congrArg Fin.val (hinj hg)
    exact hij (Fin.ext hval)
  · intro hninj
    obtain ⟨a, b, hab, hne⟩ := Function.not_injective_iff.mp hninj
    refine ⟨⟨a.val, by have := a.isLt; simpa [List.length_map] using this⟩,
            ⟨b.val, by have := b.isLt; simpa [List.length_map] using this⟩,
            ?_, ?_⟩
    · intro hc
      have hval := congrArg Fin.val hc
      exact hne (Fin.ext hval)
    · simp only [List.get_eq_getElem, List.getElem_map] at hab
      simpa [List.get_eq_getElem] using hab

example : substituteSlug SLUG_SUBSTITUTIONS "c++-templates" = "cpp-templates" := rfl

example :
    resolveItem theSettings ⟨.article, "c++-templates", some ⟨2016, 3, 5⟩, none, [], none⟩ =
      .ok ⟨⟨.article, "c++-templates", some ⟨2016, 3, 5⟩, none, [], none⟩,
        "blog/2016/03/05/cpp-templates/", "blog/2016/03/05/cpp-templates/index.html"⟩ := rfl

example : pageUrl PAGINATION_PATTERNS "archives" 2 = "archives/page/2/" := rfl

example : totalPages 20 9 = 3 := rfl

/-! ## Claims -/

/-- C1: an article item with slug "c++-templates" dated 2016-03-05, planned
under the configured article URL template and slug-substitution list, gets
the substituted slug "cpp-templates" and resolves to the URL
`blog/2016/03/05/cpp-templates/`. -/
theorem claim_C1_article_example :
    substituteSlug theSettings.slugSubs "c++-templates" = "cpp-templates" ∧
    resolveItem theSettings
        ⟨.article, "c++-templates", some ⟨2016, 3, 5⟩, none, [], none⟩ =
      .ok ⟨⟨.article, "c++-templates", some ⟨2016, 3, 5⟩, none, [], none⟩,
        "blog/2016/03/05/cpp-templates/",
        "blog/2016/03/05/cpp-templates/index.html"⟩ :=
  ⟨rfl, rfl⟩

/-- C2: for each of the five content kinds, the configured save-as template
is the corresponding URL template with "index.html" appended. -/
theorem claim_C2_save_as_templates :
    ARTICLE_SAVE_AS = ARTICLE_URL ++ "index.html" ∧
    CATEGORY_SAVE_AS = CATEGORY_URL ++ "index.html" ∧
    TAG_SAVE_AS = TAG_URL ++ "index.html" ∧
    ARCHIVES_SAVE_AS = ARCHIVES_URL ++ "index.html" ∧
    AUTHOR_SAVE_AS = AUTHOR_URL ++ "index.html" :=
  ⟨rfl, rfl, rfl, rfl, rfl⟩

/-- C3: slug substitution under the configured substitution list is
idempotent — one pass already removes every occurrence of "c++", so a second
pass over the ordered substitution list finds no matching source token and
leaves the slug unchanged. -/
theorem claim_C3_slug_substitution_idempotent (slug : String) :
    substituteSlug theSettings.slugSubs
        (substituteSlug theSettings.slugSubs slug) =
      substituteSlug theSettings.slugSubs slug := by
  have hset : theSettings.slugSubs = [("c++", "cpp")] := rfl
  rw [hset]
  cases hc : containsTok "c++".toList slug.toList with
  | false =>
    have e1 : substituteSlug [("c++", "cpp")] slug = slug := by
      rw [substituteSlug_single, if_neg (by rw [hc]; exact Bool.false_ne_true)]
    rw [e1, e1]
  | true =>
    have e1 : substituteSlug [("c++", "cpp")] slug =
        String.mk (replaceAll "c++".toList "cpp".toList slug.toList) := by
      rw [substituteSlug_single, if_pos hc]
    rw [e1]
    have hno : containsTok "c++".toList
        (String.mk (replaceAll "c++".toList "cpp".toList slug.toList)).toList =
          false :=
      replaceAllAux_no_occ slug.toList.length slug.toList le_rfl
    rw [substituteSlug_single, if_neg (by rw [hno]; exact Bool.false_ne_true)]

/-- C4: the number of listing pages is the ceiling of item count over page
size; page 1 uses the base pagination pattern and every page ≥ 2 the
numbered one; for page size 9 and 20 items there are 3 pages, pages 2 and 3
substituting the page number into the numbered pattern. -/
theorem claim_C4_pagination :
    (∀ n p : ℕ, 0 < p → totalPages n p = ⌈(n : ℚ) / (p : ℚ)⌉₊) ∧
    totalPages 20 DEFAULT_PAGINATION = 3 ∧
    patternFor PAGINATION_PATTERNS 1 =
      ("{base_name}/", "{base_name}/index.html") ∧
    (∀ k, 2 ≤ k → patternFor PAGINATION_PATTERNS k =
      ("{base_name}/page/{number}/", "{base_name}/page/{number}/index.html")) ∧
    pageUrl PAGINATION_PATTERNS "archives" 1 = "archives/" ∧
    pageUrl PAGINATION_PATTERNS "archives" 2 = "archives/page/2/" ∧
    pageUrl PAGINATION_PATTERNS "archives" 3 = "archives/page/3/" := by
  refine ⟨fun n p hp => add_pred_div_eq_ceil n p hp, rfl, rfl, ?_, rfl, rfl, rfl⟩
  intro k hk
  have h1 : (1 : ℕ) ≤ k := by omega
  simp [patternFor, PAGINATION_PATTERNS, h1, hk]

/-- C4 witness: the pagination claim instantiated at page size 9, item count
20 and page number 2. -/
theorem claim_C4_pagination_witness :
    totalPages 20 9 = ⌈(20 : ℚ) / (9 : ℚ)⌉₊ ∧
    patternFor PAGINATION_PATTERNS 2 =
      ("{base_name}/page/{number}/", "{base_name}/page/{number}/index.html") :=
  ⟨claim_C4_pagination.1 20 9 (by decide),
   claim_C4_pagination.2.2.2.1 2 (by decide)⟩

/-- C5: over a content set whose items all resolve, `plan` fails with the
fatal collision error exactly when two distinct items resolve to the same
output file path, and when it succeeds the file paths of the returned
bindings are pairwise distinct. -/
theorem claim_C5_route_collision (st : Settings) (items : List ContentItem)
    (h : ∀ it ∈ items, errOf (resolveItem st it) = none) :
    (plan st items = .error .routeCollision ↔
      ∃ i j : Fin items.length, i ≠ j ∧
        pathOf st (items.get i) = pathOf st (items.get j)) ∧
    ∀ bs, plan st items = .ok bs →
      ∀ i j : Fin bs.length, i ≠ j →
        (bs.get i).filePath ≠ (bs.get j).filePath := by
  have hplan := plan_of_all_ok st items h
  constructor
  · by_cases hn : (items.map (pathOf st)).Nodup
    · rw [hplan, if_pos hn]
      apply iff_of_false
      · simp
      · rw [exists_dup_path_iff]
        exact fun hc => hc hn
    · rw [hplan, if_neg hn]
      exact iff_of_true rfl ((exists_dup_path_iff st items).mpr hn)
  · intro bs hok i j hij hpath
    rw [hplan] at hok
    by_cases hn : (items.map (pathOf st)).Nodup
    · rw [if_pos hn] at hok
      injection hok with hbs
      subst hbs
      apply (exists_dup_path_iff st items).mp ?_ hn
      refine ⟨⟨i.val, by have := i.isLt; simpa [List.length_map] using this⟩,
              ⟨j.val, by have := j.isLt; simpa [List.length_map] using this⟩,
              ?_, ?_⟩
      · intro hc
        have hval := congrArg Fin.val hc
        exact hij (Fin.ext hval)
      · simp only [List.get_eq_getElem, List.getElem_map] at hpath
        simp only [List.get_eq_getElem]
        exact hpath
    · rw [if_neg hn] at hok
      exact absurd hok (by simp)

/-- C5 witness: two category items with the same slug make `plan` fail with
the collision error. -/
theorem claim_C5_route_collision_witness :
    plan theSettings
      [⟨.category, "python", none, none, [], none⟩,
       ⟨.category, "python", none, none, [], none⟩] =
      .error .routeCollision := by
  have h := (claim_C5_route_collision theSettings
    [⟨.category, "python", none, none, [], none⟩,
     ⟨.category, "python", none, none, [], none⟩] (by decide)).1
  exact h.mpr ⟨⟨0, by decide⟩, ⟨1, by decide⟩, by decide, by decide⟩

/-- C6: an article item lacking a date makes its resolution fail with a
`RouteError` naming the item and the missing "date" field; such per-item
errors do not abort the pass — `plan` still resolves every item and reports
the collected errors together at the end. -/
theorem claim_C6_route_error_aggregation :
    (∀ (slug : String) (c a : Option String) (tg : List String),
      resolveItem theSettings ⟨.article, slug, none, c, tg, a⟩ =
        .error ⟨slug, "date"⟩) ∧
    ∀ (st : Settings) (items : List ContentItem),
      (items.map (resolveItem st)).filterMap errOf ≠ [] →
      plan st items =
        .error (.routeErrors ((items.map (resolveItem st)).filterMap errOf)) := by
  constructor
  · intro slug c a tg
    rfl
  · intro st items hne
    simp only [plan]
    have hcond : ¬(((items.map (resolveItem st)).filterMap errOf).isEmpty = true) := by
      intro hemp
      exact hne (by simpa using hemp)
    rw [if_neg hcond]

/-- C6 witness: one dated article between two date-less ones — both errors
are reported, in item order, and the dated item does not mask them. -/
theorem claim_C6_route_error_aggregation_witness :
    resolveItem theSettings ⟨.article, "a", none, none, [], none⟩ =
      .error ⟨"a", "date"⟩ ∧
    plan theSettings
      [⟨.article, "a", none, none, [], none⟩,
       ⟨.article, "c++-templates", some ⟨2016, 3, 5⟩, none, [], none⟩,
       ⟨.article, "b", none, none, [], none⟩] =
      .error (.routeErrors [⟨"a", "date"⟩, ⟨"b", "date"⟩]) := by
  constructor
  · exact claim_C6_route_error_aggregation.1 "a" none none []
  · have h := claim_C6_route_error_aggregation.2 theSettings
      [⟨.article, "a", none, none, [], none⟩,
       ⟨.article, "c++-templates", some ⟨2016, 3, 5⟩, none, [], none⟩,
       ⟨.article, "b", none, none, [], none⟩] (by decide)
    rw [h]
    rfl

/-- C7: the resolved settings expose both the all-content feed path
"atom.xml" and the per-group feed path "categories/%s/atom.xml". -/
theorem claim_C7_feed_paths :
    "atom.xml" ∈ theSettings.feedPaths ∧
    "categories/%s/atom.xml" ∈ theSettings.feedPaths := by
  constructor <;> simp [theSettings, FEED_ALL_ATOM, TAG_FEED_ATOM,
    CATEGORY_FEED_ATOM]

/-- C8: in the resolved settings the pagination page size is 9 and the
feeds-on-sidebar option is true. -/
theorem claim_C8_defaults :
    theSettings.pageSize = 9 ∧ theSettings.feedsOnSidebar = true :=
  ⟨rfl, rfl⟩

/-- C10: the category URL template and the tag URL template have distinct
constant prefixes, so a category page and a tag page never resolve to the
same URL or the same output file path, whatever the two slugs (and other
item attributes) are. -/
theorem claim_C10_category_tag_distinct (s1 s2 : String) (d1 d2 : Option Date)
    (c1 c2 a1 a2 : Option String) (t1 t2 : List String) :
    ∃ b1 b2 : RouteBinding,
      resolveItem theSettings ⟨.category, s1, d1, c1, t1, a1⟩ = .ok b1 ∧
      resolveItem theSettings ⟨.tag, s2, d2, c2, t2, a2⟩ = .ok b2 ∧
      b1.url ≠ b2.url ∧ b1.filePath ≠ b2.filePath := by
  refine ⟨_, _, resolveItem_category s1 d1 c1 a1 t1,
    resolveItem_tag s2 d2 c2 a2 t2, ?_, ?_⟩
  · intro h
    have hd : ("category/".toList ++
          (substituteSlug SLUG_SUBSTITUTIONS s1).toList ++ ['/']) =
        ("categories/".toList ++
          (substituteSlug SLUG_SUBSTITUTIONS s2).toList ++ ['/']) :=
      congrArg String.data h
    exact ne_of_idx7 _ _ (cat_idx7 _ _) (tag_idx7 _ _) hd
  · intro h
    have hd : (("category/".toList ++
            (substituteSlug SLUG_SUBSTITUTIONS s1).toList ++ ['/']) ++
          "index.html".toList) =
        (("categories/".toList ++
            (substituteSlug SLUG_SUBSTITUTIONS s2).toList ++ ['/']) ++
          "index.html".toList) :=
      congrArg String.data h
    exact ne_of_idx7 _ _ (cat_idx7_path _) (tag_idx7_path _) hd

/-- C9: every configured URL template ends in "/", and appending
"index.html" therefore yields a save-as path whose final segment is exactly
"index.html". -/
theorem claim_C9_trailing_slash :
    (ARTICLE_URL.toList.getLast? = some '/' ∧
     CATEGORY_URL.toList.getLast? = some '/' ∧
     TAG_URL.toList.getLast? = some '/' ∧
     ARCHIVES_URL.toList.getLast? = some '/' ∧
     AUTHOR_URL.toList.getLast? = some '/') ∧
    (lastSegment ARTICLE_SAVE_AS.toList = "index.html".toList ∧
     lastSegment CATEGORY_SAVE_AS.toList = "index.html".toList ∧
     lastSegment TAG_SAVE_AS.toList = "index.html".toList ∧
     lastSegment ARCHIVES_SAVE_AS.toList = "index.html".toList ∧
     lastSegment AUTHOR_SAVE_AS.toList = "index.html".toList) := by
  decide

end Blog
